import Mathlib

/-!
# Verification of the winminer live-session client

Shallow embedding of the winminer Go client library: the live-state
reconciler (`LiveState` with `SetSystemInfo`, `AddMachine`, `Update`),
the envelope relevance filter (`RawMessageContainer.isInteresting`),
the message decoders (`ParseStatusChangedMessage`,
`ParseSystemInfoMessage` with `checkMethodAndArgCount`), the nonce
sequencing of the session handshake and ping loop
(`newWebsocketClient`), and the idempotent close of a session
(`WebsocketClient.close`).

Go machine integers are modelled as `Int`/`Nat` (no arithmetic near
overflow occurs in the embedded code), `time.Time` as `Nat`
(milliseconds), `decimal.Decimal` as `Int` (its values are carried,
never computed with), Go maps as association lists with
insert-or-replace update, and fallible Go functions returning
`(T, error)` as `Except String T` or as a pair carrying the
unchanged state plus an optional error message.
-/

namespace Winminer

/-- `DeviceStatus` is the status of one device (Go struct `DeviceStatus`).
`decimal.Decimal` samples are modelled as `Int`. -/
structure DeviceStatus where
  status : Int
  tags : List String
  hashrates : List Int
  profits : List Int
  currency : String
  extraData : String
  deriving Repr, DecidableEq

/-- `DeviceEntry` holds information about one device (Go struct `DeviceEntry`). -/
structure DeviceEntry where
  id : String
  enabled : Bool
  name : String
  typ : String
  status : DeviceStatus
  deriving Repr, DecidableEq

/-- `MachineEntry` holds information about one machine (Go struct `MachineEntry`). -/
structure MachineEntry where
  machineName : String
  sid : String
  clientVersion : String
  isAdmin : Bool
  isPortable : Bool
  devices : List DeviceEntry
  key : String
  deriving Repr, DecidableEq

/-- A `StatusChangeContainer` names a machine, a device within it, and the
new status to install (the payload handed to `LiveState.Update`). -/
structure StatusChangeContainer where
  machineSID : String
  deviceID : String
  status : DeviceStatus
  deriving Repr, DecidableEq

/-- The Go map `map[string]time.Time` modelled as an association list;
`time.Time` is a `Nat` timestamp. -/
abbrev TimeMap : Type := List (String × Nat)

/-- Go map assignment `m[k] = v`: replace the binding if the key is
present, otherwise add it. -/
def TimeMap.insert (m : TimeMap) (k : String) (v : Nat) : TimeMap :=
  if m.any (fun p => p.1 = k) then
    m.map (fun p => if p.1 = k then (k, v) else p)
  else
    m ++ [(k, v)]

/-- The keys of the map. -/
def TimeMap.keys (m : TimeMap) : List String :=
  m.map Prod.fst

/-- `LiveState` keeps track of Live API updates (Go struct `LiveState`;
the embedded mutex only serializes access and carries no data). -/
structure LiveState where
  machines : List MachineEntry
  devicesLastUpdated : TimeMap
  deriving Repr, DecidableEq

/-- `NewLiveState` returns a new `LiveState` (empty machine list, empty map). -/
def NewLiveState : LiveState :=
  { machines := [], devicesLastUpdated := [] }

/-- `SetSystemInfo` clears the current state and sets it to the state
received: the machine list is replaced wholesale and the timestamp map
is cleared (a fresh empty map is installed). -/
def LiveState.SetSystemInfo (_s : LiveState) (entries : List MachineEntry) : LiveState :=
  { machines := entries, devicesLastUpdated := [] }

/-- The loop body of `LiveState.AddMachine`: overwrite the first entry
with a matching SID, else append. -/
def addMachineList : List MachineEntry → MachineEntry → List MachineEntry
  | [], entry => [entry]
  | m :: ms, entry =>
    if m.sid = entry.sid then entry :: ms
    else m :: addMachineList ms entry

/-- `AddMachine` adds a machine entry if it is not present already; if it
is (matched by SID), the entry is overwritten. -/
def LiveState.AddMachine (s : LiveState) (entry : MachineEntry) : LiveState :=
  { s with machines := addMachineList s.machines entry }

/-- The inner loop of `LiveState.Update`: find the first device with the
given id and replace its `status` wholesale; `none` if no device matches. -/
def findUpdateDevice : List DeviceEntry → String → DeviceStatus → Option (List DeviceEntry)
  | [], _, _ => none
  | d :: ds, deviceID, status =>
    if d.id = deviceID then some ({ d with status := status } :: ds)
    else
      match findUpdateDevice ds deviceID status with
      | some rest => some (d :: rest)
      | none => none

/-- The outer loop of `LiveState.Update`: find the first machine whose
SID matches, then update the device inside it; the loop commits to the
first SID match and never looks at later machines. -/
def updateMachines : List MachineEntry → StatusChangeContainer → Except String (List MachineEntry)
  | [], _ => .error "machine not found"
  | m :: ms, c =>
    if m.sid = c.machineSID then
      match findUpdateDevice m.devices c.deviceID c.status with
      | some ds => .ok ({ m with devices := ds } :: ms)
      | none => .error "device not found"
    else
      match updateMachines ms c with
      | .ok rest => .ok (m :: rest)
      | .error e => .error e

/-- `Update` applies a status change (Go `LiveState.Update`). `now` is the
value of `time.Now()` at the call. On an error path the Go code performs
no write before returning, so the pair carries the input state unchanged
together with the error message; on success it carries the updated state
and no error. -/
def LiveState.Update (s : LiveState) (c : StatusChangeContainer) (now : Nat) :
    LiveState × Option String :=
  match updateMachines s.machines c with
  | .ok ms =>
    ({ machines := ms,
       devicesLastUpdated := s.devicesLastUpdated.insert c.deviceID now }, none)
  | .error e => (s, some e)

/-! ## Envelope relevance filter -/

/-- `strconv.Atoi(s[:1])` for a non-empty Go string `s`: the first byte
parses as an integer exactly when it is a decimal digit (a UTF-8
multi-byte first byte, or any other non-digit, makes `Atoi` fail). The
empty-string case is handled by the caller, where Go slicing panics. -/
def atoiFirst (s : String) : Option Nat :=
  match s.data with
  | [] => none
  | c :: _ => if c.isDigit then some (c.toNat - 48) else none

/-- Go `strings.Split(s, ",")`: split at every comma, keeping empty
parts (splitting the empty string with a non-empty separator yields one
empty part). -/
def splitComma : List Char → List String
  | [] => [""]
  | c :: rest =>
    if c = ',' then "" :: splitComma rest
    else
      match splitComma rest with
      | [] => [String.mk [c]]
      | p :: ps => String.mk (c :: p.data) :: ps

/-- `RawMessageContainer.isInteresting`, as a function of the channel
string: split on commas, demand exactly 5 parts, and compare the leading
digits of parts at index 2 and 3 against 2. `none` models a Go runtime
panic: `split[2][:1]` (and `split[3][:1]`) panics with a slice-bounds
error when that part is the empty string. -/
def isInteresting (channel : String) : Option Bool :=
  let split := splitComma channel.data
  if split.length ≠ 5 then some false
  else
    let p2 := split.getD 2 ""
    if p2.data = [] then none
    else
      match atoiFirst p2 with
      | none => some false
      | some id1 =>
        let p3 := split.getD 3 ""
        if p3.data = [] then none
        else
          match atoiFirst p3 with
          | none => some false
          | some id2 => some (id1 == 2 && id2 == 2)

/-! ## JSON values and message decoders

Argument payloads arrive as `json.RawMessage`; we model the parsed JSON
value as an inductive `JVal` and Go's `encoding/json` unmarshalling of
the tagged structs as explicit decoders: a missing or `null` field
leaves the zero value, a field of the wrong shape is a decode error,
and unknown fields are ignored (lookup is by tag name). -/

/-- A JSON value. Numbers are modelled as `Int` (the embedded structs
only carry integer status codes and `decimal.Decimal` samples, which we
model as `Int`). -/
inductive JVal where
  | jnull : JVal
  | jbool : Bool → JVal
  | jnum : Int → JVal
  | jstr : String → JVal
  | jarr : List JVal → JVal
  | jobj : List (String × JVal) → JVal

/-- Look up a field of a JSON object by its tag. -/
def jLookup (fields : List (String × JVal)) (k : String) : Option JVal :=
  (fields.find? (fun p => p.1 = k)).map Prod.snd

/-- Unmarshal a JSON value into a Go `string` field: missing/`null`
keeps the zero value `""`. -/
def decodeStringField (fields : List (String × JVal)) (k : String) : Except String String :=
  match jLookup fields k with
  | none => .ok ""
  | some .jnull => .ok ""
  | some (.jstr s) => .ok s
  | some _ => .error ("cannot unmarshal field " ++ k ++ " as string")

/-- Unmarshal a JSON value into a Go `bool` field. -/
def decodeBoolField (fields : List (String × JVal)) (k : String) : Except String Bool :=
  match jLookup fields k with
  | none => .ok false
  | some .jnull => .ok false
  | some (.jbool b) => .ok b
  | some _ => .error ("cannot unmarshal field " ++ k ++ " as bool")

/-- Unmarshal a JSON value into a Go `int` field. -/
def decodeIntField (fields : List (String × JVal)) (k : String) : Except String Int :=
  match jLookup fields k with
  | none => .ok 0
  | some .jnull => .ok 0
  | some (.jnum n) => .ok n
  | some _ => .error ("cannot unmarshal field " ++ k ++ " as number")

/-- Unmarshal each element of a JSON array with the given decoder. -/
def decodeArr (dec : JVal → Except String α) : List JVal → Except String (List α)
  | [] => .ok []
  | v :: vs =>
    match dec v with
    | .error e => .error e
    | .ok a =>
      match decodeArr dec vs with
      | .error e => .error e
      | .ok rest => .ok (a :: rest)

/-- Unmarshal a JSON value into a Go slice field: missing/`null` keeps
the zero value `nil`, modelled as `[]`. -/
def decodeListField (dec : JVal → Except String α) (fields : List (String × JVal))
    (k : String) : Except String (List α) :=
  match jLookup fields k with
  | none => .ok []
  | some .jnull => .ok []
  | some (.jarr vs) => decodeArr dec vs
  | some _ => .error ("cannot unmarshal field " ++ k ++ " as array")

/-- A JSON string element (for `[]string` tags). -/
def decodeJStr : JVal → Except String String
  | .jstr s => .ok s
  | _ => .error "cannot unmarshal element as string"

/-- A JSON number element (for `[]decimal.Decimal` samples). -/
def decodeJNum : JVal → Except String Int
  | .jnum n => .ok n
  | _ => .error "cannot unmarshal element as number"

/-- Unmarshal a `DeviceStatus` from a JSON value, following its Go field
tags (`status`, `tags`, `hashrates`, `profits`, `currency`, `extraData`). -/
def decodeDeviceStatus : JVal → Except String DeviceStatus
  | .jnull => .ok ⟨0, [], [], [], "", ""⟩
  | .jobj fields =>
    match decodeIntField fields "status" with
    | .error e => .error e
    | .ok status =>
    match decodeListField decodeJStr fields "tags" with
    | .error e => .error e
    | .ok tags =>
    match decodeListField decodeJNum fields "hashrates" with
    | .error e => .error e
    | .ok hashrates =>
    match decodeListField decodeJNum fields "profits" with
    | .error e => .error e
    | .ok profits =>
    match decodeStringField fields "currency" with
    | .error e => .error e
    | .ok currency =>
    match decodeStringField fields "extraData" with
    | .error e => .error e
    | .ok extraData => .ok ⟨status, tags, hashrates, profits, currency, extraData⟩
  | _ => .error "cannot unmarshal as DeviceStatus"

/-- Unmarshal a `DeviceEntry` from a JSON value, following its Go field
tags (`id`, `enabled`, `name`, `type`, `status`). -/
def decodeDeviceEntry : JVal → Except String DeviceEntry
  | .jnull => .ok ⟨"", false, "", "", ⟨0, [], [], [], "", ""⟩⟩
  | .jobj fields =>
    match decodeStringField fields "id" with
    | .error e => .error e
    | .ok id =>
    match decodeBoolField fields "enabled" with
    | .error e => .error e
    | .ok enabled =>
    match decodeStringField fields "name" with
    | .error e => .error e
    | .ok name =>
    match decodeStringField fields "type" with
    | .error e => .error e
    | .ok typ =>
    match (match jLookup fields "status" with
           | none => .ok ⟨0, [], [], [], "", ""⟩
           | some v => decodeDeviceStatus v : Except String DeviceStatus) with
    | .error e => .error e
    | .ok status => .ok ⟨id, enabled, name, typ, status⟩
  | _ => .error "cannot unmarshal as DeviceEntry"

/-- Unmarshal a `MachineEntry` from a JSON value, following its Go field
tags (`machineName`, `sid`, `clientVersion`, `isAdmin`, `isPortable`,
`devices`, `key`). -/
def decodeMachineEntry : JVal → Except String MachineEntry
  | .jnull => .ok ⟨"", "", "", false, false, [], ""⟩
  | .jobj fields =>
    match decodeStringField fields "machineName" with
    | .error e => .error e
    | .ok machineName =>
    match decodeStringField fields "sid" with
    | .error e => .error e
    | .ok sid =>
    match decodeStringField fields "clientVersion" with
    | .error e => .error e
    | .ok clientVersion =>
    match decodeBoolField fields "isAdmin" with
    | .error e => .error e
    | .ok isAdmin =>
    match decodeBoolField fields "isPortable" with
    | .error e => .error e
    | .ok isPortable =>
    match decodeListField decodeDeviceEntry fields "devices" with
    | .error e => .error e
    | .ok devices =>
    match decodeStringField fields "key" with
    | .error e => .error e
    | .ok key => .ok ⟨machineName, sid, clientVersion, isAdmin, isPortable, devices, key⟩
  | _ => .error "cannot unmarshal as MachineEntry"

/-- An unparsed method invocation from the Live API (Go struct
`RawMessage`): hub name, method name, and raw positional arguments. -/
structure RawMessage where
  host : String
  method : String
  arguments : List JVal

/-- `parseString`: unmarshal one raw argument as a JSON string. -/
def parseString : JVal → Except String String
  | .jstr s => .ok s
  | _ => .error "unable to unmarshal as string"

/-- `checkMethodAndArgCount`: `some msg` is the error returned by the Go
function, `none` is its `nil` return. -/
def checkMethodAndArgCount (msg : RawMessage) (method : String) (argCount : Nat) :
    Option String :=
  if msg.method ≠ method then some ("not a " ++ method ++ " message")
  else if msg.arguments.length ≠ argCount then
    some ("expected " ++ toString argCount ++ " arguments, got "
          ++ toString msg.arguments.length)
  else none

/-- A `StatusChangedMessage` holds the arguments of a `StatusChanged` call. -/
structure StatusChangedMessage where
  machineSID : String
  deviceID : String
  status : DeviceStatus
  deriving Repr, DecidableEq

/-- `ParseStatusChangedMessage` parses a `StatusChanged` message.
`errors.Wrap(err, ctx)` is modelled as prefixing `ctx ++ ": "`. -/
def ParseStatusChangedMessage (message : RawMessage) : Except String StatusChangedMessage :=
  match checkMethodAndArgCount message "StatusChanged" 3 with
  | some e => .error ("invalid message: " ++ e)
  | none =>
    match parseString (message.arguments.getD 0 .jnull) with
    | .error e => .error ("unable to decode: " ++ e)
    | .ok machineSID =>
    match parseString (message.arguments.getD 1 .jnull) with
    | .error e => .error ("unable to decode: " ++ e)
    | .ok deviceID =>
    match decodeDeviceStatus (message.arguments.getD 2 .jnull) with
    | .error e => .error ("unable to decode: " ++ e)
    | .ok status => .ok ⟨machineSID, deviceID, status⟩

/-- `ParseSystemInfoMessage` parses a `SetSystemInfo` message: arguments
0 (client id) and 1 (machine SID) are never read; only argument 2 is
unmarshalled, into a single `MachineEntry`. -/
def ParseSystemInfoMessage (message : RawMessage) : Except String (List MachineEntry) :=
  if message.method ≠ "SetSystemInfo" then .error "not a SystemInfo message"
  else if message.arguments.length ≠ 3 then .error "expected 3 arguments"
  else
    match decodeMachineEntry (message.arguments.getD 2 .jnull) with
    | .error e => .error ("unable to decode: " ++ e)
    | .ok m => .ok [m]

/-! ## Nonce sequencing of `newWebsocketClient`

`newWebsocketClient` takes `nonce := time.Now().UnixNano() / 1000000`,
passes it to `negotiate`, runs `nonce++` before `start`, and the ping
goroutine runs `nonce++` before each `ping`. We embed the nonce-bearing
protocol calls as the trace they produce during a session in which the
ping timer fires `pings` times (the pings are serialized with the setup:
the goroutine is the only writer of `nonce` once started). -/

/-- A protocol call of the session that carries the session nonce. -/
inductive ProtoCall where
  | negotiate : ProtoCall
  | start : ProtoCall
  | ping : ProtoCall
  deriving Repr, DecidableEq

/-- The ping goroutine's loop: on each timer tick, increment the nonce
and then call `ping` with it. -/
def pingLoop (nonce : Int) : Nat → List (ProtoCall × Int)
  | 0 => []
  | n + 1 => (ProtoCall.ping, nonce + 1) :: pingLoop (nonce + 1) n

/-- The nonce-bearing calls of `newWebsocketClient`, in order, for a
session whose initial millisecond timestamp is `t` and whose ping timer
fires `pings` times: `negotiate` with `t`, `nonce++`, `start`, then the
ping loop. -/
def sessionNonceTrace (t : Int) (pings : Nat) : List (ProtoCall × Int) :=
  let nonce := t
  (ProtoCall.negotiate, nonce) :: (ProtoCall.start, nonce + 1) :: pingLoop (nonce + 1) pings

/-! ## Idempotent close of a session

`WebsocketClient.close` checks the `closed` channel with a non-blocking
receive (which succeeds once the channel is closed), and otherwise
closes `closed`, waits on the `WaitGroup` for both keep-alive goroutines
to return, closes the websocket, and closes the `err` channel. We model
the sequential behaviour of one client as a small state machine over the
channel/goroutine state, using Go's semantics: a receive on a closed
channel succeeds immediately, `close` of an already-closed channel
panics, and `wg.Wait` returns only after both goroutines have run their
deferred `Done`. -/

/-- The state of one `WebsocketClient` relevant to `close`: whether the
`closed` and `err` channels have been closed, whether each keep-alive
goroutine has returned, and whether the websocket has been closed. -/
structure WSClientState where
  closedChClosed : Bool
  errChClosed : Bool
  pingerStopped : Bool
  keepAliveStopped : Bool
  wsClosed : Bool
  deriving Repr, DecidableEq

/-- The state of a freshly created client: both channels open, both
keep-alive goroutines running. -/
def freshWSClient : WSClientState :=
  { closedChClosed := false, errChClosed := false,
    pingerStopped := false, keepAliveStopped := false, wsClosed := false }

/-- `WebsocketClient.close`: `none` models a Go runtime panic (a `close`
of an already-closed channel). The initial `select` returns immediately
when the `closed` channel is already closed, leaving the state
untouched; otherwise the `closed` channel is closed, `wg.Wait` returns
once both goroutines have observed the signal and stopped, the
websocket is closed, and the `err` channel is closed. -/
def WSClientState.close (s : WSClientState) : Option WSClientState :=
  if s.closedChClosed then some s
  else
    let s1 : WSClientState :=
      { s with closedChClosed := true, pingerStopped := true, keepAliveStopped := true,
               wsClosed := true }
    if s1.errChClosed then none
    else some { s1 with errChClosed := true }

/-! ## Reconciler operation sequences

For the cross-operation invariant we run finite sequences of the three
mutating `LiveState` operations from `NewLiveState`. -/

/-- One mutating call on a `LiveState`. An `update` carries the status
change and the value of `time.Now()` at the call. -/
inductive ReconcilerOp where
  | setInfo : List MachineEntry → ReconcilerOp
  | add : MachineEntry → ReconcilerOp
  | update : StatusChangeContainer → Nat → ReconcilerOp

/-- Apply one operation (an `update` error leaves the state unchanged,
as the pair returned by `LiveState.Update` records). -/
def applyOp (s : LiveState) : ReconcilerOp → LiveState
  | .setInfo es => s.SetSystemInfo es
  | .add e => s.AddMachine e
  | .update c now => (s.Update c now).1

/-- Run a sequence of operations from the fresh state. -/
def runOps (ops : List ReconcilerOp) : LiveState :=
  ops.foldl applyOp NewLiveState

/-- Does machine `m` contain a device with id `did`? -/
def machineHasDevice (m : MachineEntry) (did : String) : Bool :=
  m.devices.any (fun d => d.id = did)

/-- How many machines of the list contain a device with id `did`? -/
def countHolders (ms : List MachineEntry) (did : String) : Nat :=
  (ms.filter (fun m => machineHasDevice m did)).length

/-- The cross-reference invariant: every key of the device-timestamp map
occurs as a device id in exactly one machine of the current list. -/
def stateInv (s : LiveState) : Bool :=
  s.devicesLastUpdated.all (fun p => countHolders s.machines p.1 == 1)

/-- Device ids are machine-unique: no device id occurs in two distinct
machines of the list. -/
def devIdsUnique (ms : List MachineEntry) : Bool :=
  match ms with
  | [] => true
  | m :: rest =>
    (m.devices.all (fun d => countHolders rest d.id == 0)) && devIdsUnique rest

/-- Which operations keep the cross-reference invariant: `SetSystemInfo`
only with machine-unique device ids, `Update` always, `AddMachine` never
guaranteed. -/
def goodOp : ReconcilerOp → Bool
  | .setInfo es => devIdsUnique es
  | .add _ => false
  | .update _ _ => true

/-! ## Concrete example inputs -/

/-- A sample idle device status. -/
def exStatus0 : DeviceStatus := ⟨0, [], [], [], "", ""⟩

/-- A sample mining device status (code 8). -/
def exStatus8 : DeviceStatus := ⟨8, ["mining"], [100], [2], "BTC", ""⟩

/-- A sample device with the given id. -/
def exDevice (i : String) : DeviceEntry := ⟨i, true, "GPU0", "gpu", exStatus0⟩

/-- A sample machine with the given SID and devices. -/
def exMachine (sid : String) (ds : List DeviceEntry) : MachineEntry :=
  ⟨"host1", sid, "1.0", false, false, ds, "k"⟩

/-- Install a machine `A` holding device `d1`, update that device (creating
the timestamp-map key `d1`), then overwrite machine `A` with a device-less
entry via `AddMachine`: the key `d1` survives but the device is gone. -/
def cexOps : List ReconcilerOp :=
  [.setInfo [exMachine "A" [exDevice "d1"]],
   .update ⟨"A", "d1", exStatus8⟩ 0,
   .add (exMachine "A" [])]

/-- A sequence of invariant-preserving operations. -/
def goodExOps : List ReconcilerOp :=
  [.setInfo [exMachine "A" [exDevice "d1", exDevice "d2"]],
   .update ⟨"A", "d2", exStatus8⟩ 7]

/-! # Theorems -/

/-! ## Helper lemmas about `LiveState.Update` -/

theorem updateMachines_no_sid (ms : List MachineEntry) (c : StatusChangeContainer)
    (h : ∀ m ∈ ms, m.sid ≠ c.machineSID) :
    updateMachines ms c = .error "machine not found" := by
  induction ms with
  | nil => rfl
  | cons m rest ih =>
    have hm : m.sid ≠ c.machineSID := h m (List.mem_cons_self m rest)
    have hrest := ih (fun x hx => h x (List.mem_cons_of_mem m hx))
    simp [updateMachines, hm, hrest]

theorem findUpdateDevice_no_id (ds : List DeviceEntry) (did : String) (st : DeviceStatus)
    (h : ∀ d ∈ ds, d.id ≠ did) :
    findUpdateDevice ds did st = none := by
  induction ds with
  | nil => rfl
  | cons d rest ih =>
    have hd : d.id ≠ did := h d (List.mem_cons_self d rest)
    have hrest := ih (fun x hx => h x (List.mem_cons_of_mem d hx))
    simp [findUpdateDevice, hd, hrest]

theorem updateMachines_device_missing (ms : List MachineEntry) (c : StatusChangeContainer)
    (hex : ∃ m ∈ ms, m.sid = c.machineSID)
    (hall : ∀ m ∈ ms, m.sid = c.machineSID → ∀ d ∈ m.devices, d.id ≠ c.deviceID) :
    updateMachines ms c = .error "device not found" := by
  induction ms with
  | nil => obtain ⟨m, hm, _⟩ := hex; exact absurd hm (List.not_mem_nil m)
  | cons m rest ih =>
    by_cases hm : m.sid = c.machineSID
    · have hfind := findUpdateDevice_no_id m.devices c.deviceID c.status
        (hall m (List.mem_cons_self m rest) hm)
      simp [updateMachines, hm, hfind]
    · obtain ⟨m', hm', hsid⟩ := hex
      have hm'rest : m' ∈ rest := by
        rcases List.mem_cons.mp hm' with h1 | h1
        · exact absurd (h1 ▸ hsid) hm
        · exact h1
      have hrest := ih ⟨m', hm'rest, hsid⟩
        (fun x hx => hall x (List.mem_cons_of_mem m hx))
      simp [updateMachines, hm, hrest]

theorem findUpdateDevice_found (dpre : List DeviceEntry) (d : DeviceEntry)
    (dpost : List DeviceEntry) (did : String) (st : DeviceStatus)
    (hpre : ∀ x ∈ dpre, x.id ≠ did) (hd : d.id = did) :
    findUpdateDevice (dpre ++ d :: dpost) did st
      = some (dpre ++ { d with status := st } :: dpost) := by
  induction dpre with
  | nil => simp [findUpdateDevice, hd]
  | cons x xs ih =>
    have hx : x.id ≠ did := hpre x (List.mem_cons_self x xs)
    have hrest := ih (fun y hy => hpre y (List.mem_cons_of_mem x hy))
    simp [findUpdateDevice, hx, hrest]

theorem updateMachines_success (pre : List MachineEntry) (m : MachineEntry)
    (post : List MachineEntry) (c : StatusChangeContainer) (ds' : List DeviceEntry)
    (hpre : ∀ x ∈ pre, x.sid ≠ c.machineSID) (hm : m.sid = c.machineSID)
    (hfind : findUpdateDevice m.devices c.deviceID c.status = some ds') :
    updateMachines (pre ++ m :: post) c = .ok (pre ++ { m with devices := ds' } :: post) := by
  induction pre with
  | nil => simp [updateMachines, hm, hfind]
  | cons x xs ih =>
    have hx : x.sid ≠ c.machineSID := hpre x (List.mem_cons_self x xs)
    have hrest := ih (fun y hy => hpre y (List.mem_cons_of_mem x hy))
    simp [updateMachines, hx, hrest]

theorem updateMachines_first_match_missing (pre : List MachineEntry) (m1 : MachineEntry)
    (rest : List MachineEntry) (c : StatusChangeContainer)
    (hpre : ∀ m ∈ pre, m.sid ≠ c.machineSID) (h1 : m1.sid = c.machineSID)
    (hno : ∀ d ∈ m1.devices, d.id ≠ c.deviceID) :
    updateMachines (pre ++ m1 :: rest) c = .error "device not found" := by
  induction pre with
  | nil => simp [updateMachines, h1, findUpdateDevice_no_id m1.devices c.deviceID c.status hno]
  | cons x xs ih =>
    have hx : x.sid ≠ c.machineSID := hpre x (List.mem_cons_self x xs)
    have hrest := ih (fun y hy => hpre y (List.mem_cons_of_mem x hy))
    simp [updateMachines, hx, hrest]

/-- C1: `Update` with a machine id matching no machine returns the
"machine not found" error, and with a machine id that matches but a
device id matching no device in any matching machine returns the
"device not found" error; in both cases the returned state is exactly
the input state (the Go code writes nothing on these paths). -/
theorem update_error_paths_leave_state (s : LiveState) (c : StatusChangeContainer) (now : Nat) :
    ((∀ m ∈ s.machines, m.sid ≠ c.machineSID) →
      s.Update c now = (s, some "machine not found")) ∧
    ((∃ m ∈ s.machines, m.sid = c.machineSID) →
     (∀ m ∈ s.machines, m.sid = c.machineSID → ∀ d ∈ m.devices, d.id ≠ c.deviceID) →
      s.Update c now = (s, some "device not found")) := by
  constructor
  · intro h
    unfold LiveState.Update
    rw [updateMachines_no_sid s.machines c h]
  · intro hex hall
    unfold LiveState.Update
    rw [updateMachines_device_missing s.machines c hex hall]

/-- C1 witness: on a one-machine snapshot, an unknown machine id yields
"machine not found" and an unknown device id yields "device not found",
leaving the state untouched. -/
theorem update_error_paths_leave_state_witness :
    (LiveState.Update ⟨[exMachine "A" [exDevice "d1"]], []⟩ ⟨"B", "d1", exStatus8⟩ 5
       = (⟨[exMachine "A" [exDevice "d1"]], []⟩, some "machine not found")) ∧
    (LiveState.Update ⟨[exMachine "A" [exDevice "d1"]], []⟩ ⟨"A", "dx", exStatus8⟩ 5
       = (⟨[exMachine "A" [exDevice "d1"]], []⟩, some "device not found")) :=
  ⟨(update_error_paths_leave_state ⟨[exMachine "A" [exDevice "d1"]], []⟩
      ⟨"B", "d1", exStatus8⟩ 5).1 (by decide),
   (update_error_paths_leave_state ⟨[exMachine "A" [exDevice "d1"]], []⟩
      ⟨"A", "dx", exStatus8⟩ 5).2 (by decide) (by decide)⟩

/-- C10: `Update` commits to the first machine in snapshot order whose
SID matches: if a machine earlier in the list matches the SID but lacks
the device, `Update` returns "device not found" and leaves the state
unchanged, even though a later machine with the same SID contains the
device. -/
theorem update_commits_to_first_sid_match
    (pre mid post : List MachineEntry) (m1 m2 : MachineEntry) (tm : TimeMap)
    (c : StatusChangeContainer) (now : Nat)
    (hpre : ∀ m ∈ pre, m.sid ≠ c.machineSID)
    (h1 : m1.sid = c.machineSID)
    (hno : ∀ d ∈ m1.devices, d.id ≠ c.deviceID)
    (_h2 : m2.sid = c.machineSID)
    (_hhas : ∃ d ∈ m2.devices, d.id = c.deviceID) :
    LiveState.Update ⟨pre ++ m1 :: (mid ++ m2 :: post), tm⟩ c now
      = (⟨pre ++ m1 :: (mid ++ m2 :: post), tm⟩, some "device not found") := by
  unfold LiveState.Update
  rw [show (⟨pre ++ m1 :: (mid ++ m2 :: post), tm⟩ : LiveState).machines
        = pre ++ m1 :: (mid ++ m2 :: post) from rfl]
  rw [updateMachines_first_match_missing pre m1 (mid ++ m2 :: post) c hpre h1 hno]

/-- C10 witness: two machines share SID "A"; only the second holds
device "d2"; the update for ("A", "d2") fails with "device not found"
and the state is unchanged. -/
theorem update_commits_to_first_sid_match_witness :
    LiveState.Update
        ⟨[] ++ exMachine "A" [exDevice "d1"] :: ([] ++ exMachine "A" [exDevice "d2"] :: []), []⟩
        ⟨"A", "d2", exStatus8⟩ 5
      = (⟨[] ++ exMachine "A" [exDevice "d1"] :: ([] ++ exMachine "A" [exDevice "d2"] :: []), []⟩,
         some "device not found") :=
  update_commits_to_first_sid_match [] [] [] (exMachine "A" [exDevice "d1"])
    (exMachine "A" [exDevice "d2"]) [] ⟨"A", "d2", exStatus8⟩ 5
    (by decide) (by decide) (by decide) (by decide) (by decide)

/-- C5: after `SetSystemInfo` installs a snapshot, an `Update` naming a
machine SID and a device id present in it (first occurrences) succeeds:
the only change to the machine list is the named device's `status`
field, replaced wholesale, and the timestamp map holds exactly the one
fresh entry for that device id. -/
theorem setSystemInfo_then_update_frame (s : LiveState)
    (pre post : List MachineEntry) (m : MachineEntry)
    (dpre dpost : List DeviceEntry) (d : DeviceEntry)
    (c : StatusChangeContainer) (now : Nat)
    (hpre : ∀ x ∈ pre, x.sid ≠ c.machineSID) (hm : m.sid = c.machineSID)
    (hdevs : m.devices = dpre ++ d :: dpost)
    (hdpre : ∀ x ∈ dpre, x.id ≠ c.deviceID) (hd : d.id = c.deviceID) :
    (s.SetSystemInfo (pre ++ m :: post)).Update c now
      = ({ machines :=
             pre ++ { m with devices := dpre ++ { d with status := c.status } :: dpost } :: post,
           devicesLastUpdated := [(c.deviceID, now)] }, none) := by
  have hfind : findUpdateDevice m.devices c.deviceID c.status
      = some (dpre ++ { d with status := c.status } :: dpost) := by
    rw [hdevs]
    exact findUpdateDevice_found dpre d dpost c.deviceID c.status hdpre hd
  unfold LiveState.SetSystemInfo LiveState.Update
  rw [show ({ machines := pre ++ m :: post, devicesLastUpdated := [] } : LiveState).machines
        = pre ++ m :: post from rfl]
  rw [updateMachines_success pre m post c _ hpre hm hfind]
  simp [TimeMap.insert]

/-- C5 witness: install a snapshot with one machine and two devices,
then update device "d2": only its status changes, "d1" is untouched,
and the map holds exactly ("d2", 7). -/
theorem setSystemInfo_then_update_frame_witness :
    (LiveState.SetSystemInfo NewLiveState
        ([] ++ exMachine "A" [exDevice "d1", exDevice "d2"] :: [])).Update
        ⟨"A", "d2", exStatus8⟩ 7
      = ({ machines :=
             [] ++ { exMachine "A" [exDevice "d1", exDevice "d2"] with
                     devices := [exDevice "d1"]
                       ++ { exDevice "d2" with status := exStatus8 } :: [] } :: [],
           devicesLastUpdated := [("d2", 7)] }, none) :=
  setSystemInfo_then_update_frame NewLiveState [] []
    (exMachine "A" [exDevice "d1", exDevice "d2"]) [exDevice "d1"] [] (exDevice "d2")
    ⟨"A", "d2", exStatus8⟩ 7 (by decide) (by decide) (by decide) (by decide) (by decide)

/-! ## Helper lemmas for the cross-reference invariant (C2) -/

theorem any_id_eq_mem (ds : List DeviceEntry) (x : String) :
    (ds.any fun d => d.id = x) = decide (x ∈ ds.map DeviceEntry.id) := by
  rw [Bool.eq_iff_iff, List.any_eq_true, decide_eq_true_eq, List.mem_map]
  simp only [decide_eq_true_eq]

theorem machineHasDevice_iff (m : MachineEntry) (x : String) :
    machineHasDevice m x = true ↔ x ∈ m.devices.map DeviceEntry.id := by
  rw [machineHasDevice, any_id_eq_mem, decide_eq_true_eq]

theorem machineHasDevice_eq_of_id_map {ds : List DeviceEntry} (m m2 : MachineEntry)
    (hds : m2.devices = ds)
    (h : ds.map DeviceEntry.id = m.devices.map DeviceEntry.id) (x : String) :
    machineHasDevice m2 x = machineHasDevice m x := by
  rw [machineHasDevice, machineHasDevice, hds, any_id_eq_mem, any_id_eq_mem, h]

theorem countHolders_cons (m : MachineEntry) (ms : List MachineEntry) (x : String) :
    countHolders (m :: ms) x
      = (if machineHasDevice m x then 1 else 0) + countHolders ms x := by
  by_cases h : machineHasDevice m x
  · simp only [countHolders, List.filter_cons, h, if_true, List.length_cons]
    omega
  · simp only [countHolders, List.filter_cons, h]
    simp

theorem findUpdateDevice_id_map (ds : List DeviceEntry) (did : String) (st : DeviceStatus)
    (ds' : List DeviceEntry) (h : findUpdateDevice ds did st = some ds') :
    ds'.map DeviceEntry.id = ds.map DeviceEntry.id := by
  induction ds generalizing ds' with
  | nil => simp [findUpdateDevice] at h
  | cons d rest ih =>
    by_cases hd : d.id = did
    · have hstep : findUpdateDevice (d :: rest) did st
          = some ({ d with status := st } :: rest) := by
        simp [findUpdateDevice, hd]
      rw [hstep, Option.some.injEq] at h
      rw [← h]
      rfl
    · cases hrec : findUpdateDevice rest did st with
      | none => simp [findUpdateDevice, hd, hrec] at h
      | some r =>
        have hstep : findUpdateDevice (d :: rest) did st = some (d :: r) := by
          simp [findUpdateDevice, hd, hrec]
        rw [hstep, Option.some.injEq] at h
        rw [← h, List.map_cons, List.map_cons, ih r hrec]

theorem findUpdateDevice_hit (ds : List DeviceEntry) (did : String) (st : DeviceStatus)
    (ds' : List DeviceEntry) (h : findUpdateDevice ds did st = some ds') :
    did ∈ ds.map DeviceEntry.id := by
  induction ds generalizing ds' with
  | nil => simp [findUpdateDevice] at h
  | cons d rest ih =>
    by_cases hd : d.id = did
    · simp [hd]
    · cases hrec : findUpdateDevice rest did st with
      | none => simp [findUpdateDevice, hd, hrec] at h
      | some r => simp [ih r hrec]

theorem updateMachines_countHolders (ms : List MachineEntry) (c : StatusChangeContainer)
    (ms' : List MachineEntry) (h : updateMachines ms c = .ok ms') (x : String) :
    countHolders ms' x = countHolders ms x := by
  induction ms generalizing ms' with
  | nil => simp [updateMachines] at h
  | cons m rest ih =>
    by_cases hm : m.sid = c.machineSID
    · cases hfind : findUpdateDevice m.devices c.deviceID c.status with
      | none => simp [updateMachines, hm, hfind] at h
      | some ds' =>
        have hstep : updateMachines (m :: rest) c
            = .ok ({ m with devices := ds' } :: rest) := by
          simp [updateMachines, hm, hfind]
        rw [hstep, Except.ok.injEq] at h
        rw [← h, countHolders_cons, countHolders_cons,
          machineHasDevice_eq_of_id_map m { m with devices := ds' } rfl
            (findUpdateDevice_id_map _ _ _ _ hfind) x]
    · cases hrec : updateMachines rest c with
      | error e => simp [updateMachines, hm, hrec] at h
      | ok r =>
        have hstep : updateMachines (m :: rest) c = .ok (m :: r) := by
          simp [updateMachines, hm, hrec]
        rw [hstep, Except.ok.injEq] at h
        rw [← h, countHolders_cons, countHolders_cons, ih r hrec]

theorem updateMachines_holder_exists (ms : List MachineEntry) (c : StatusChangeContainer)
    (ms' : List MachineEntry) (h : updateMachines ms c = .ok ms') :
    1 ≤ countHolders ms c.deviceID := by
  induction ms generalizing ms' with
  | nil => simp [updateMachines] at h
  | cons m rest ih =>
    by_cases hm : m.sid = c.machineSID
    · cases hfind : findUpdateDevice m.devices c.deviceID c.status with
      | none => simp [updateMachines, hm, hfind] at h
      | some ds' =>
        have hmem := findUpdateDevice_hit m.devices c.deviceID c.status ds' hfind
        rw [countHolders_cons, if_pos ((machineHasDevice_iff m c.deviceID).mpr hmem)]
        omega
    · cases hrec : updateMachines rest c with
      | error e => simp [updateMachines, hm, hrec] at h
      | ok r =>
        have := ih r hrec
        rw [countHolders_cons]
        omega

theorem unique_countHolders_le_one (ms : List MachineEntry)
    (h : devIdsUnique ms = true) (x : String) :
    countHolders ms x ≤ 1 := by
  induction ms with
  | nil => simp [countHolders]
  | cons m rest ih =>
    rw [show devIdsUnique (m :: rest)
          = ((m.devices.all fun d => countHolders rest d.id == 0) && devIdsUnique rest)
        from rfl, Bool.and_eq_true] at h
    rw [countHolders_cons]
    by_cases hm : machineHasDevice m x
    · obtain ⟨d, hd, hid⟩ := List.mem_map.mp ((machineHasDevice_iff m x).mp hm)
      have h0 : countHolders rest d.id = 0 := by
        have := List.all_eq_true.mp h.1 d hd
        simpa using this
      rw [hid] at h0
      rw [if_pos hm, h0]
    · rw [if_neg hm]
      have := ih h.2
      omega

theorem updateMachines_unique (ms : List MachineEntry) (c : StatusChangeContainer)
    (ms' : List MachineEntry) (h : updateMachines ms c = .ok ms')
    (hu : devIdsUnique ms = true) :
    devIdsUnique ms' = true := by
  induction ms generalizing ms' with
  | nil => simp [updateMachines] at h
  | cons m rest ih =>
    rw [show devIdsUnique (m :: rest)
          = ((m.devices.all fun d => countHolders rest d.id == 0) && devIdsUnique rest)
        from rfl, Bool.and_eq_true] at hu
    by_cases hm : m.sid = c.machineSID
    · cases hfind : findUpdateDevice m.devices c.deviceID c.status with
      | none => simp [updateMachines, hm, hfind] at h
      | some ds' =>
        have hstep : updateMachines (m :: rest) c
            = .ok ({ m with devices := ds' } :: rest) := by
          simp [updateMachines, hm, hfind]
        rw [hstep, Except.ok.injEq] at h
        rw [← h,
          show devIdsUnique ({ m with devices := ds' } :: rest)
              = ((ds'.all fun d => countHolders rest d.id == 0) && devIdsUnique rest)
            from rfl,
          Bool.and_eq_true]
        refine ⟨?_, hu.2⟩
        rw [List.all_eq_true]
        intro d hd
        have hmap := findUpdateDevice_id_map _ _ _ _ hfind
        have hdid : d.id ∈ m.devices.map DeviceEntry.id := by
          rw [← hmap]
          exact List.mem_map_of_mem DeviceEntry.id hd
        obtain ⟨d0, hd0, hid0⟩ := List.mem_map.mp hdid
        have h0 := List.all_eq_true.mp hu.1 d0 hd0
        simp only at h0 ⊢
        rw [← hid0]
        exact h0
    · cases hrec : updateMachines rest c with
      | error e => simp [updateMachines, hm, hrec] at h
      | ok r =>
        have hstep : updateMachines (m :: rest) c = .ok (m :: r) := by
          simp [updateMachines, hm, hrec]
        rw [hstep, Except.ok.injEq] at h
        rw [← h,
          show devIdsUnique (m :: r)
              = ((m.devices.all fun d => countHolders r d.id == 0) && devIdsUnique r)
            from rfl,
          Bool.and_eq_true]
        refine ⟨?_, ih r hrec hu.2⟩
        rw [List.all_eq_true]
        intro d hd
        have h0 := List.all_eq_true.mp hu.1 d hd
        simp only at h0 ⊢
        rw [updateMachines_countHolders rest c r hrec d.id]
        exact h0

theorem timeMap_insert_mem (m : TimeMap) (k : String) (v : Nat)
    (p : String × Nat) (hp : p ∈ TimeMap.insert m k v) :
    p.1 = k ∨ p ∈ m := by
  unfold TimeMap.insert at hp
  by_cases hany : m.any (fun q => q.1 = k)
  · rw [if_pos hany] at hp
    obtain ⟨q, hq, hqe⟩ := List.mem_map.mp hp
    by_cases hqk : q.1 = k
    · left
      rw [if_pos hqk] at hqe
      rw [← hqe]
    · right
      rw [if_neg hqk] at hqe
      rw [← hqe]
      exact hq
  · rw [if_neg hany] at hp
    rcases List.mem_append.mp hp with h1 | h1
    · right; exact h1
    · left
      rw [List.mem_singleton.mp h1]

theorem applyOp_preserves (s : LiveState) (op : ReconcilerOp)
    (hgood : goodOp op = true)
    (hinv : stateInv s = true) (huniq : devIdsUnique s.machines = true) :
    stateInv (applyOp s op) = true ∧ devIdsUnique (applyOp s op).machines = true := by
  cases op with
  | setInfo es =>
    constructor
    · simp [applyOp, LiveState.SetSystemInfo, stateInv]
    · simpa [applyOp, LiveState.SetSystemInfo, goodOp] using hgood
  | add e => simp [goodOp] at hgood
  | update c now =>
    cases hres : updateMachines s.machines c with
    | error e =>
      have hsame : applyOp s (.update c now) = s := by
        simp [applyOp, LiveState.Update, hres]
      rw [hsame]
      exact ⟨hinv, huniq⟩
    | ok ms' =>
      have happly : applyOp s (.update c now)
          = { machines := ms',
              devicesLastUpdated := s.devicesLastUpdated.insert c.deviceID now } := by
        simp [applyOp, LiveState.Update, hres]
      rw [happly]
      constructor
      · rw [stateInv, List.all_eq_true]
        intro p hp
        have hcount : countHolders ms' p.1 = 1 := by
          rcases timeMap_insert_mem s.devicesLastUpdated c.deviceID now p hp with hk | hold
          · rw [hk, updateMachines_countHolders s.machines c ms' hres]
            have h1 := updateMachines_holder_exists s.machines c ms' hres
            have h2 := unique_countHolders_le_one s.machines huniq c.deviceID
            omega
          · rw [updateMachines_countHolders s.machines c ms' hres]
            have := List.all_eq_true.mp hinv p hold
            simpa using this
        simpa using hcount
      · exact updateMachines_unique s.machines c ms' hres huniq

theorem foldl_preserves_inv (ops : List ReconcilerOp) :
    ∀ s : LiveState, (∀ op ∈ ops, goodOp op = true) →
      stateInv s = true → devIdsUnique s.machines = true →
      stateInv (ops.foldl applyOp s) = true
        ∧ devIdsUnique (ops.foldl applyOp s).machines = true := by
  induction ops with
  | nil => intro s _ h1 h2; exact ⟨h1, h2⟩
  | cons op rest ih =>
    intro s hg h1 h2
    have hop := applyOp_preserves s op (hg op (List.mem_cons_self op rest)) h1 h2
    exact ih (applyOp s op) (fun o ho => hg o (List.mem_cons_of_mem op ho)) hop.1 hop.2

/-- C2 counterexample: the operation sequence `cexOps` (install machine
"A" with device "d1", update ("A","d1"), then `AddMachine` overwrite of
"A" with a device-less entry) leaves "d1" as the only key of the
timestamp map while zero machines of the final list contain a device
"d1" — refuting the claim that every key exists in exactly one machine
after any sequence of the three operations. -/
theorem stateInv_fails_after_addMachine :
    stateInv (runOps cexOps) = false
      ∧ TimeMap.keys (runOps cexOps).devicesLastUpdated = ["d1"]
      ∧ countHolders (runOps cexOps).machines "d1" = 0 := by
  decide

/-- C2 (amended): starting from `NewLiveState`, after any finite
sequence of `SetSystemInfo` and `Update` operations (no `AddMachine`)
in which every installed snapshot assigns each device id to at most one
machine, every key of the device-timestamp map exists as a device in
exactly one machine of the current machine list. -/
theorem timestamp_keys_have_unique_holder (ops : List ReconcilerOp)
    (h : ∀ op ∈ ops, goodOp op = true) :
    stateInv (runOps ops) = true :=
  (foldl_preserves_inv ops NewLiveState h rfl rfl).1

/-- C2 witness: a concrete good sequence (snapshot install plus one
update) for which the invariant checker evaluates to true. -/
theorem timestamp_keys_have_unique_holder_witness :
    stateInv (runOps goodExOps) = true :=
  timestamp_keys_have_unique_holder goodExOps (by decide)

/-! ## Envelope relevance filter (C3, C4) -/

theorem digit_beq_two (c : Char) (h : c.isDigit = true) :
    (c.toNat - 48 == 2) = (c == '2') := by
  rw [Char.isDigit, Bool.and_eq_true, decide_eq_true_eq, decide_eq_true_eq] at h
  rw [Bool.eq_iff_iff, beq_iff_eq, beq_iff_eq]
  have h1 : 48 ≤ c.val.toNat := h.1
  constructor
  · intro h2
    rw [Char.toNat] at h2
    have h50 : c.val.toNat = 50 := by omega
    have hv : c.val = ('2' : Char).val := UInt32.toNat.inj (by simpa using h50)
    exact Char.ext hv
  · intro h2
    subst h2
    rfl

/-- C3 (evaluation at the failing input): on a channel with exactly 5
comma-separated parts whose part 3 is empty, the relevance check
reaches the Go slice expression `split[2][:1]` on an empty string and
panics (modelled as `none`) instead of returning false — so
`isInteresting` is not total over all channel strings as claimed. -/
theorem isInteresting_panics_on_empty_part :
    isInteresting "a,b,,2,e" = none
      ∧ (splitComma "a,b,,2,e".data).length = 5 := by
  decide

/-- C4: a channel that does not split into exactly 5 comma-separated
parts is never relevant; with exactly 5 parts whose parts 3 and 4
(1-indexed) start with decimal digits, the envelope is relevant exactly
when both leading digits are 2. -/
theorem isInteresting_digit_filter (ch : String) :
    ((splitComma ch.data).length ≠ 5 → isInteresting ch = some false) ∧
    (∀ p0 p1 p2 p3 p4 : String, splitComma ch.data = [p0, p1, p2, p3, p4] →
      ∀ (c1 : Char) (r1 : List Char) (c2 : Char) (r2 : List Char),
        p2.data = c1 :: r1 → p3.data = c2 :: r2 →
        c1.isDigit = true → c2.isDigit = true →
        isInteresting ch = some (c1 == '2' && c2 == '2')) := by
  constructor
  · intro h
    simp only [isInteresting]
    rw [if_pos h]
  · intro p0 p1 p2 p3 p4 hsplit c1 r1 c2 r2 hp2 hp3 hd1 hd2
    have ha1 : atoiFirst p2 = some (c1.toNat - 48) := by
      simp only [atoiFirst, hp2, hd1, if_true]
    have ha2 : atoiFirst p3 = some (c2.toNat - 48) := by
      simp only [atoiFirst, hp3, hd2, if_true]
    simp only [isInteresting, hsplit, List.length_cons, List.length_nil,
      List.getD_cons_succ, List.getD_cons_zero, hp2, hp3, ha1, ha2]
    simp [digit_beq_two c1 hd1, digit_beq_two c2 hd2]

/-- C4 witness: the channel "a,b,2x,25,e" has 5 parts with leading
digits 2 and 2, hence is relevant; the theorem instantiated there. -/
theorem isInteresting_digit_filter_witness :
    isInteresting "a,b,2x,25,e" = some (('2' == '2') && ('2' == '2')) :=
  (isInteresting_digit_filter "a,b,2x,25,e").2 "a" "b" "2x" "25" "e" (by decide)
    '2' ['x'] '2' ['5'] (by decide) (by decide) (by decide) (by decide)

/-! ## Nonce sequencing (C6) -/

theorem pingLoop_eq (nonce : Int) (n : Nat) :
    pingLoop nonce n
      = (List.range n).map (fun (i : Nat) => (ProtoCall.ping, nonce + 1 + (i : Int))) := by
  induction n generalizing nonce with
  | zero => rfl
  | succ k ih =>
    rw [pingLoop, ih (nonce + 1), List.range_succ_eq_map, List.map_cons, List.map_map]
    refine congrArg₂ _ (by simp) ?_
    refine List.map_congr_left ?_
    intro a _
    simp only [Function.comp]
    rw [Prod.mk.injEq]
    refine ⟨rfl, ?_⟩
    push_cast
    ring

/-- C6: within one session, the nonce-bearing calls are `negotiate` with
the initial millisecond timestamp `t`, `start` with `t + 1`, and then
ping number `i` with `t + 2 + i`: the nonce sequence is
`t, t+1, t+2, ...`, strictly increasing, never reused. -/
theorem session_nonce_sequence (t : Int) (pings : Nat) :
    sessionNonceTrace t pings
      = (ProtoCall.negotiate, t) :: (ProtoCall.start, t + 1)
          :: (List.range pings).map (fun (i : Nat) => (ProtoCall.ping, t + 2 + (i : Int))) ∧
    ((sessionNonceTrace t pings).map Prod.snd).Pairwise (· < ·) := by
  have htrace : sessionNonceTrace t pings
      = (ProtoCall.negotiate, t) :: (ProtoCall.start, t + 1)
          :: (List.range pings).map (fun (i : Nat) => (ProtoCall.ping, t + 2 + (i : Int))) := by
    rw [sessionNonceTrace, pingLoop_eq]
    refine congrArg _ (congrArg _ (List.map_congr_left ?_))
    intro a _
    rw [Prod.mk.injEq]
    exact ⟨rfl, by ring⟩
  refine ⟨htrace, ?_⟩
  rw [htrace, List.map_cons, List.map_cons, List.map_map]
  have hmem : ∀ x ∈ (List.range pings).map (Prod.snd ∘ fun (i : Nat) => (ProtoCall.ping, t + 2 + (i : Int))),
      t < x ∧ t + 1 < x := by
    intro x hx
    obtain ⟨i, _, hi⟩ := List.mem_map.mp hx
    simp only [Function.comp] at hi
    rw [← hi]
    constructor <;> omega
  refine List.Pairwise.cons ?_ (List.Pairwise.cons ?_ ?_)
  · intro x hx
    rcases List.mem_cons.mp hx with h1 | h1
    · omega
    · exact (hmem x h1).1
  · intro x hx
    exact (hmem x hx).2
  · refine List.Pairwise.map _ ?_ (List.pairwise_lt_range pings)
    intro a b hab
    simp only [Function.comp]
    omega

/-! ## Message decoders (C7, C8) -/

/-- C7: a `RawMessage` whose method is "StatusChanged" but whose
argument list does not have exactly 3 elements is rejected with the
arity error naming the expected and actual counts, and no
`StatusChangedMessage` is produced (the result is an `error`, never a
partial record). -/
theorem parseStatusChanged_arity_error (msg : RawMessage)
    (hm : msg.method = "StatusChanged") (hn : msg.arguments.length ≠ 3) :
    ParseStatusChangedMessage msg
      = .error ("invalid message: "
          ++ ("expected " ++ toString 3 ++ " arguments, got "
              ++ toString msg.arguments.length)) := by
  have hc : checkMethodAndArgCount msg "StatusChanged" 3
      = some ("expected " ++ toString 3 ++ " arguments, got "
              ++ toString msg.arguments.length) := by
    rw [checkMethodAndArgCount, if_neg (fun hcon => hcon hm), if_pos hn]
  simp only [ParseStatusChangedMessage, hc]

/-- C7 witness: a 2-argument StatusChanged message yields exactly the
arity error. -/
theorem parseStatusChanged_arity_error_witness :
    ParseStatusChangedMessage ⟨"reportinghub", "StatusChanged", [.jstr "m", .jstr "d"]⟩
      = .error ("invalid message: "
          ++ ("expected " ++ toString 3 ++ " arguments, got " ++ toString 2)) :=
  parseStatusChanged_arity_error ⟨"reportinghub", "StatusChanged", [.jstr "m", .jstr "d"]⟩
    rfl (by decide)

/-- C8: a "SetSystemInfo" message with exactly 3 arguments whose third
argument decodes as a machine record yields exactly the one-element
list holding that machine; the first two arguments are arbitrary and
never influence the result. -/
theorem parseSystemInfo_uses_third_arg (host : String) (a0 a1 a2 : JVal) (m : MachineEntry)
    (hdec : decodeMachineEntry a2 = .ok m) :
    ParseSystemInfoMessage ⟨host, "SetSystemInfo", [a0, a1, a2]⟩ = .ok [m] := by
  simp [ParseSystemInfoMessage, hdec]

/-- C8 witness: the third argument decodes as a machine with SID "A";
the first two arguments are a number and a string that are ignored. -/
theorem parseSystemInfo_uses_third_arg_witness :
    ParseSystemInfoMessage
        ⟨"reportinghub", "SetSystemInfo",
         [.jnum 7, .jstr "ignored", .jobj [("machineName", .jstr "host1"), ("sid", .jstr "A")]]⟩
      = .ok [⟨"host1", "A", "", false, false, [], ""⟩] :=
  parseSystemInfo_uses_third_arg "reportinghub" (.jnum 7) (.jstr "ignored")
    (.jobj [("machineName", .jstr "host1"), ("sid", .jstr "A")])
    ⟨"host1", "A", "", false, false, [], ""⟩ rfl

/-! ## Idempotent close (C9) -/

/-- C9: closing a session that is open (channels not yet closed) yields
a state on which a second `close` is a no-op: it returns the same state,
does not panic (no re-close of either channel), and both background
keep-alive activities have already fully stopped when the first close
returned. -/
theorem close_idempotent (s : WSClientState)
    (hc : s.closedChClosed = false) (he : s.errChClosed = false) :
    ∃ s1 : WSClientState, s.close = some s1 ∧ s1.close = some s1
      ∧ s1.pingerStopped = true ∧ s1.keepAliveStopped = true := by
  refine ⟨⟨true, true, true, true, true⟩, ?_, ?_, rfl, rfl⟩
  · simp [WSClientState.close, hc, he]
  · simp [WSClientState.close]

/-- C9 witness: the fresh client closes once, and the second close is a
no-op with both background activities stopped. -/
theorem close_idempotent_witness :
    ∃ s1 : WSClientState, freshWSClient.close = some s1 ∧ s1.close = some s1
      ∧ s1.pingerStopped = true ∧ s1.keepAliveStopped = true :=
  close_idempotent freshWSClient rfl rfl

end Winminer
